import Mathlib

/-!
Verification of the shipstatic/types contract package (src/src/index.ts).

The TypeScript source is shallowly embedded: JS strings are modelled as
Lean String (for messages and URL parts) or as List Char (where proofs
quantify over characters); JS "undefined"/"null"/objects that flow into
the error `details` payload are modelled by the JSValue inductive; code
that throws is modelled with Except.  The file src/src/index.ts contains
two concatenated variants of the package; where the variants differ
(generateDomainUrl) both are embedded, the second with a V2 suffix.
-/

/- Converts a Lean string literal to the List Char model of a JS string
(sequence of Unicode scalar values). -/
def jstr (s : String) : List Char := s.data

-- =============================================================================
-- ERROR SYSTEM (src/src/index.ts lines 280-465)
-- =============================================================================

/-- Embeds `enum ErrorType` : the ten error kinds of the platform. -/
inductive ErrorType where
  | Validation
  | NotFound
  | RateLimit
  | Authentication
  | Business
  | Api
  | Network
  | Cancelled
  | File
  | Config
deriving DecidableEq, Repr

/-- Wire string of each ErrorType member (the enum member values). -/
def ErrorType.wire : ErrorType → String
  | .Validation => "validation_failed"
  | .NotFound => "not_found"
  | .RateLimit => "rate_limit_exceeded"
  | .Authentication => "authentication_failed"
  | .Business => "business_logic_error"
  | .Api => "internal_server_error"
  | .Network => "network_error"
  | .Cancelled => "operation_cancelled"
  | .File => "file_error"
  | .Config => "config_error"

/-- The closed list of all ten ErrorType members. -/
def allErrorTypes : List ErrorType :=
  [.Validation, .NotFound, .RateLimit, .Authentication, .Business,
   .Api, .Network, .Cancelled, .File, .Config]

/-- Model of a JavaScript value as it can appear in the `details : any`
payload of a ShipError: undefined, null, booleans, numbers (JS numbers
restricted to integers; no claim depends on float semantics), strings,
arrays and plain objects. -/
inductive JSValue where
  | undefined
  | null
  | bool (b : Bool)
  | num (n : Int)
  | str (s : String)
  | arr (elems : List JSValue)
  | obj (fields : List (String × JSValue))

/-- JS truthiness of a JSValue: undefined, null, false, 0 and "" are
falsy, everything else is truthy. -/
def truthy : JSValue → Bool
  | .undefined => false
  | .null => false
  | .bool b => b
  | .num n => n != 0
  | .str s => s != ""
  | .arr _ => true
  | .obj _ => true

/-- Models the optional-chained property access `v?.k` : on an object,
the value of the first binding of the key (undefined when missing); on
any non-object (including null and undefined) it yields undefined. -/
def getField (v : JSValue) (k : String) : JSValue :=
  match v with
  | .obj fields =>
    match fields.find? (fun f => f.1 == k) with
    | some f => f.2
    | none => .undefined
  | _ => .undefined

/-- Embeds `class ShipError` : a tagged error record with kind, message,
optional HTTP status and optional opaque details (JSValue.undefined
models an absent details argument). -/
structure ShipError where
  type : ErrorType
  message : String
  status : Option Int
  details : JSValue

/-- Embeds `interface ErrorResponse` : the wire format
{error, message, status?, details?}; an Option/JSValue.undefined value
models an omitted optional field. -/
structure ErrorResponse where
  error : ErrorType
  message : String
  status : Option Int
  details : JSValue

/-- Embeds `ShipError.toResponse` : wire conversion, which drops the
details payload of an Authentication error when it carries a truthy
`internal` marker. -/
def ShipError.toResponse (e : ShipError) : ErrorResponse :=
  let details :=
    if e.type == ErrorType.Authentication && truthy (getField e.details ("internal"))
    then JSValue.undefined
    else e.details
  { error := e.type, message := e.message, status := e.status, details := details }

/-- Embeds `ShipError.fromResponse` : reconstructs an error from the
four wire fields. -/
def ShipError.fromResponse (r : ErrorResponse) : ShipError :=
  { type := r.error, message := r.message, status := r.status, details := r.details }

-- Factory methods (src/src/index.ts lines 360-408).  Optional JS
-- parameters are modelled as explicit Option arguments (none = omitted);
-- an omitted details argument is JSValue.undefined.

/-- Embeds `ShipError.validation(message, details?)`. -/
def ShipError.validation (message : String) (details : JSValue) : ShipError :=
  ⟨.Validation, message, some 400, details⟩

/-- Embeds `ShipError.notFound(resource, id?)` with its message format. -/
def ShipError.notFound (resource : String) (id : Option String) : ShipError :=
  let message :=
    match id with
    | some i => resource ++ " " ++ i ++ " not found"
    | none => resource ++ " not found"
  ⟨.NotFound, message, some 404, .undefined⟩

/-- Embeds `ShipError.rateLimit(message = "Too many requests")`. -/
def ShipError.rateLimit (message : Option String) : ShipError :=
  ⟨.RateLimit, message.getD ("Too many requests"), some 429, .undefined⟩

/-- Embeds `ShipError.authentication(message = "Authentication required", details?)`. -/
def ShipError.authentication (message : Option String) (details : JSValue) : ShipError :=
  ⟨.Authentication, message.getD ("Authentication required"), some 401, details⟩

/-- Embeds `ShipError.business(message, status = 400)`. -/
def ShipError.business (message : String) (status : Option Int) : ShipError :=
  ⟨.Business, message, some (status.getD 400), .undefined⟩

/-- Embeds `ShipError.network(message, cause?)` : details is the object
{cause}. -/
def ShipError.network (message : String) (cause : JSValue) : ShipError :=
  ⟨.Network, message, none, .obj [("cause", cause)]⟩

/-- Embeds `ShipError.cancelled(message)`. -/
def ShipError.cancelled (message : String) : ShipError :=
  ⟨.Cancelled, message, none, .undefined⟩

/-- Embeds `ShipError.file(message, filePath?)` : details is the object
{filePath}. -/
def ShipError.file (message : String) (filePath : JSValue) : ShipError :=
  ⟨.File, message, none, .obj [("filePath", filePath)]⟩

/-- Embeds `ShipError.config(message, details?)`. -/
def ShipError.config (message : String) (details : JSValue) : ShipError :=
  ⟨.Config, message, none, details⟩

/-- Embeds `ShipError.api(message, status = 500)`. -/
def ShipError.api (message : String) (status : Option Int) : ShipError :=
  ⟨.Api, message, some (status.getD 500), .undefined⟩

/-- Embeds `ShipError.database(message, status = 500)` : produces kind Api. -/
def ShipError.database (message : String) (status : Option Int) : ShipError :=
  ⟨.Api, message, some (status.getD 500), .undefined⟩

/-- Embeds `ShipError.storage(message, status = 500)` : produces kind Api. -/
def ShipError.storage (message : String) (status : Option Int) : ShipError :=
  ⟨.Api, message, some (status.getD 500), .undefined⟩

-- =============================================================================
-- VALIDATION UTILITIES (src/src/index.ts lines 510-605; the second
-- variant at lines 1640-1735 is textually identical except that its
-- catch clause tests `error instanceof ShipError` instead of
-- `isShipError(error)`, which coincide on the exceptions modelled here)
-- =============================================================================

/- API key configuration constants.  The names of the source constants
end in PREFIX/LENGTH; they are renamed here with a Chars/Nat spelling. -/

/-- Embeds the constant API_KEY_PREFIX = "ship-". -/
def apiKeyStart : List Char := jstr ("ship-")

/-- Embeds API_KEY_HEX_LENGTH = 64. -/
def apiKeyHexLen : Nat := 64

/-- Embeds API_KEY_TOTAL_LENGTH = 5 + 64 = 69. -/
def apiKeyTotalLen : Nat := apiKeyStart.length + apiKeyHexLen

/-- Character class of the regex [a-f0-9] under the /i flag. -/
def isHexChar (c : Char) : Bool :=
  (('a' ≤ c) && (c ≤ 'f')) || (('A' ≤ c) && (c ≤ 'F')) || (('0' ≤ c) && (c ≤ '9'))

/-- Test of the anchored regex /^[a-f0-9]{64}$/i. -/
def hex64 (cs : List Char) : Bool :=
  cs.length == 64 && cs.all isHexChar

/-- Embeds `validateApiKey` : throws ShipError.validation with a rule
specific message at the first violated rule, otherwise returns. -/
def validateApiKey (apiKey : List Char) : Except ShipError Unit :=
  if !(apiKeyStart.isPrefixOf apiKey) then
    .error (ShipError.validation ("API key must start with \"ship-\"") .undefined)
  else if apiKey.length != apiKeyTotalLen then
    .error (ShipError.validation
      ("API key must be 69 characters total (ship- + 64 hex chars)") .undefined)
  else if !(hex64 (apiKey.drop apiKeyStart.length)) then
    .error (ShipError.validation
      ("API key must contain 64 hexadecimal characters after \"ship-\" prefix")
      .undefined)
  else
    .ok ()

/-- Stated from the spec sentence for C3: the pattern
^ship-[0-9a-f]{64}$ with case-insensitive hex, phrased as an explicit
decomposition.  Used only to compare validateApiKey against the spec. -/
def apiKeySpecPattern (s : List Char) : Prop :=
  ∃ t : List Char, s = apiKeyStart ++ t ∧ t.length = 64 ∧ t.all isHexChar = true

-- URL validation.  The WHATWG URL parser invoked by `new URL(apiUrl)`
-- is a runtime builtin, not code of this package; it is abstracted as
-- the function input: `none` models a parse failure (the constructor
-- throwing a foreign TypeError), `some u` models a successful parse
-- with the four observed components.

/-- Components of a parsed URL object observed by validateApiUrl.
search and hash are "" when absent, as in the URL class. -/
structure URLParts where
  protocol : String
  pathname : String
  search : String
  hash : String

/-- Exceptions that can cross the try block of validateApiUrl: either a
ShipError of this package or a foreign exception (the URL parser's
TypeError). -/
inductive UrlExc where
  | ship (e : ShipError)
  | foreign

/-- Models `isShipError` (and `instanceof ShipError`, the second
variant) on the exceptions that reach the catch clause: the structural
recognizer accepts exactly the ShipError values, whose name marker and
status field are present by construction. -/
def UrlExc.isShipErr : UrlExc → Bool
  | .ship _ => true
  | .foreign => false

/-- Embeds the try block of `validateApiUrl` : the URL construction
(throwing a foreign exception on parse failure) followed by the three
format checks, each throwing ShipError.validation. -/
def validateApiUrlTry (parsed : Option URLParts) : Except UrlExc Unit :=
  match parsed with
  | none => .error .foreign
  | some url =>
    if !(url.protocol == "http:" || url.protocol == "https:") then
      .error (.ship (ShipError.validation
        ("API URL must use http:// or https:// protocol") .undefined))
    else if url.pathname != "/" && url.pathname != "" then
      .error (.ship (ShipError.validation ("API URL must not contain a path") .undefined))
    else if url.search != "" || url.hash != "" then
      .error (.ship (ShipError.validation
        ("API URL must not contain query parameters or fragments") .undefined))
    else
      .ok ()

/-- Embeds `validateApiUrl` : the try block wrapped in the catch clause,
which re-raises this package's own errors unchanged and converts any
foreign exception into the generic Validation error. -/
def validateApiUrl (parsed : Option URLParts) : Except ShipError Unit :=
  match validateApiUrlTry parsed with
  | .ok u => .ok u
  | .error (.ship e) => .error e
  | .error .foreign => .error (ShipError.validation ("API URL must be a valid URL") .undefined)

/-- Stated from the spec sentence for C4: the parse succeeded, the
scheme is http or https, the pathname is empty or the root, and there
is no query string or fragment. -/
def apiUrlSpecOk (parsed : Option URLParts) : Bool :=
  match parsed with
  | none => false
  | some url =>
    (url.protocol == "http:" || url.protocol == "https:") &&
    (url.pathname == "/" || url.pathname == "") &&
    url.search == "" && url.hash == ""

/-- Character class [a-z] under the /i flag: an ASCII letter. -/
def isLetterChar (c : Char) : Bool :=
  (('a' ≤ c) && (c ≤ 'z')) || (('A' ≤ c) && (c ≤ 'Z'))

/-- Character class [a-z0-9] under the /i flag: an ASCII letter or digit. -/
def isAlnumChar (c : Char) : Bool :=
  isLetterChar c || (('0' ≤ c) && (c ≤ '9'))

/-- Embeds `isDeployment` (and the identical `validateSubdomain` of the
second variant): the anchored regex /^[a-z]+-[a-z]+-[a-z0-9]{7}$/i,
compiled to a deterministic matcher (the character classes exclude the
hyphen, so greedy matching is exact). -/
def isDeployment (input : List Char) : Bool :=
  let a := input.takeWhile isLetterChar
  match input.dropWhile isLetterChar with
  | '-' :: r1 =>
    if a.isEmpty then false
    else
      let b := r1.takeWhile isLetterChar
      match r1.dropWhile isLetterChar with
      | '-' :: r2 =>
        if b.isEmpty then false
        else r2.length == 7 && r2.all isAlnumChar
      | _ => false
  | _ => false

/-- Stated from the spec sentence for C9: one or more letters, a
hyphen, one or more letters, a hyphen, exactly 7 alphanumerics,
case-insensitively, as an explicit decomposition. -/
def deploymentSpecShape (s : List Char) : Prop :=
  ∃ a b c : List Char,
    s = a ++ '-' :: (b ++ '-' :: c) ∧
    a ≠ [] ∧ b ≠ [] ∧
    a.all isLetterChar = true ∧ b.all isLetterChar = true ∧
    c.length = 7 ∧ c.all isAlnumChar = true

-- =============================================================================
-- URL GENERATION (variant one lines 1092-1106, variant two lines 2138-2158)
-- =============================================================================

/-- Embeds `generateDeploymentUrl` (first variant). -/
def generateDeploymentUrl (deployment : String) (platformDomain : Option String) : String :=
  let domain :=
    match platformDomain with
    | some d => if d == "" then "shipstatic.com" else d
    | none => "shipstatic.com"
  "https://" ++ deployment ++ "." ++ domain

/-- Embeds `generateDomainUrl` of the first variant: prepends https://
to the stored FQDN. -/
def generateDomainUrl (domain : String) : String :=
  "https://" ++ domain

/-- Embeds `generateDomainUrl` of the second variant: a domain with a
dot is treated as external, otherwise the (defaulted) sites domain is
appended.  The JS default `sitesDomain || 'statichost.dev'` treats an
empty string as absent. -/
def generateDomainUrlV2 (domain : String) (sitesDomain : Option String) : String :=
  if domain.data.contains '.' then
    "https://" ++ domain
  else
    let siteDomain :=
      match sitesDomain with
      | some d => if d == "" then "statichost.dev" else d
      | none => "statichost.dev"
    "https://" ++ domain ++ "." ++ siteDomain

-- =============================================================================
-- TAG UTILITIES (src/src/index.ts lines 1112-1141)
-- =============================================================================

/-- Model of a JSON value as produced by the runtime's JSON.parse for
the inputs deserializeTags distinguishes: strings, arrays, booleans,
null and numeric literals (kept as their scanned text, since
deserializeTags never inspects numbers).  Objects are omitted from the
model: deserializeTags maps every non-array parse result to undefined,
so an input whose parse would yield an object is indistinguishable from
a rejected one. -/
inductive Json where
  | str (s : List Char)
  | arr (elems : List Json)
  | bool (b : Bool)
  | null
  | num (lit : List Char)

/-- Models the JSON.stringify escape of one string character: quote,
backslash and the named control escapes, a \u00XX escape for the other
control characters, and every other character verbatim. -/
def escChar (c : Char) : List Char :=
  if c = '"' then ['\\', '"']
  else if c = '\\' then ['\\', '\\']
  else if c = '\x08' then ['\\', 'b']
  else if c = '\x09' then ['\\', 't']
  else if c = '\x0a' then ['\\', 'n']
  else if c = '\x0c' then ['\\', 'f']
  else if c = '\x0d' then ['\\', 'r']
  else if c.toNat < 0x20 then
    ['\\', 'u', '0', '0', Nat.digitChar (c.toNat / 16), Nat.digitChar (c.toNat % 16)]
  else [c]

/-- JSON.stringify of one string value: the escaped body in quotes. -/
def quoteStr (s : List Char) : List Char :=
  '"' :: (s.map escChar).flatten ++ ['"']

/-- JSON.stringify of the elements of a nonempty string array:
comma-separated quoted strings. -/
def serializeElems : List (List Char) → List Char
  | [] => []
  | [x] => quoteStr x
  | x :: y :: tl => quoteStr x ++ ',' :: serializeElems (y :: tl)

/-- Embeds `serializeTags` : null (none) for an undefined or empty
array, otherwise JSON.stringify of the array. -/
def serializeTags (tags : Option (List (List Char))) : Option (List Char) :=
  match tags with
  | none => none
  | some [] => none
  | some xs => some ('[' :: serializeElems xs ++ [']'])

/-- Numeric value of one hexadecimal digit, none otherwise. -/
def hexDigitVal (c : Char) : Option Nat :=
  if ('0' ≤ c) && (c ≤ '9') then some (c.toNat - '0'.toNat)
  else if ('a' ≤ c) && (c ≤ 'f') then some (c.toNat - 'a'.toNat + 10)
  else if ('A' ≤ c) && (c ≤ 'F') then some (c.toNat - 'A'.toNat + 10)
  else none

/-- Decodes a single-character JSON string escape (the named escapes
and the two quoting escapes; \u escapes are handled separately). -/
def escDecode (e : Char) : Option Char :=
  if e = '"' then some '"'
  else if e = '\\' then some '\\'
  else if e = '/' then some '/'
  else if e = 'b' then some '\x08'
  else if e = 't' then some '\x09'
  else if e = 'n' then some '\x0a'
  else if e = 'f' then some '\x0c'
  else if e = 'r' then some '\x0d'
  else none

/-- Models the JSON string-body scanner of JSON.parse, entered after the
opening quote: returns the decoded body and the input after the closing
quote; unterminated strings, raw control characters and bad escapes are
rejected.  The Nat argument is recursion fuel, an artifact of the
embedding; the caller passes the input length, which the proofs show is
always sufficient. -/
def parseStringBody : Nat → List Char → Option (List Char × List Char)
  | 0, _ => none
  | _ + 1, [] => none
  | fuel + 1, c :: rest =>
    if c = '"' then some ([], rest)
    else if c = '\\' then
      match rest with
      | 'u' :: h1 :: h2 :: h3 :: h4 :: rest2 =>
        match hexDigitVal h1, hexDigitVal h2, hexDigitVal h3, hexDigitVal h4 with
        | some d1, some d2, some d3, some d4 =>
          (parseStringBody fuel rest2).map
            (fun sr => (Char.ofNat (((d1 * 16 + d2) * 16 + d3) * 16 + d4) :: sr.1, sr.2))
        | _, _, _, _ => none
      | e :: rest1 =>
        match escDecode e with
        | some d => (parseStringBody fuel rest1).map (fun sr => (d :: sr.1, sr.2))
        | none => none
      | [] => none
    else if c.toNat < 0x20 then none
    else (parseStringBody fuel rest).map (fun sr => (c :: sr.1, sr.2))

/-- Character that may occur in a JSON numeric literal. -/
def isNumLitChar (c : Char) : Bool :=
  (('0' ≤ c) && (c ≤ '9')) || c == '-' || c == '+' || c == '.' || c == 'e' || c == 'E'

mutual

/-- Models JSON.parse's value parser (without insignificant whitespace,
which none of the inputs in play contains), with a fuel argument
bounding the recursion; the callers supply the input length, which the
proofs show is sufficient for every serializer output. -/
def parseVal : Nat → List Char → Option (Json × List Char)
  | 0, _ => none
  | _ + 1, [] => none
  | fuel + 1, c :: rest =>
    if c = '"' then
      match parseStringBody rest.length rest with
      | some (s, r) => some (.str s, r)
      | none => none
    else if c = '[' then
      match rest with
      | ']' :: r => some (.arr [], r)
      | _ =>
        match parseElems fuel rest with
        | some (xs, r) => some (.arr xs, r)
        | none => none
    else if c = 't' then
      match rest with
      | 'r' :: 'u' :: 'e' :: r => some (.bool true, r)
      | _ => none
    else if c = 'f' then
      match rest with
      | 'a' :: 'l' :: 's' :: 'e' :: r => some (.bool false, r)
      | _ => none
    else if c = 'n' then
      match rest with
      | 'u' :: 'l' :: 'l' :: r => some (.null, r)
      | _ => none
    else if c = '-' ∨ (('0' ≤ c) && (c ≤ '9')) = true then
      some (.num (c :: rest.takeWhile isNumLitChar), rest.dropWhile isNumLitChar)
    else none

/-- Parses the comma-separated elements of a nonempty JSON array up to
and including the closing bracket. -/
def parseElems : Nat → List Char → Option (List Json × List Char)
  | 0, _ => none
  | fuel + 1, cs =>
    match parseVal fuel cs with
    | none => none
    | some (v, r) =>
      match r with
      | ',' :: r1 =>
        match parseElems fuel r1 with
        | some (vs, r2) => some (v :: vs, r2)
        | none => none
      | ']' :: r1 => some ([v], r1)
      | _ => none

end

/-- Embeds `deserializeTags` : undefined (none) for a null or empty
transport string; otherwise the JSON.parse result when it is a fully
consumed nonempty array, and undefined for every other outcome
(malformed input, trailing garbage, non-array value, empty array). -/
def deserializeTags (tagsJson : Option (List Char)) : Option (List Json) :=
  match tagsJson with
  | none => none
  | some [] => none
  | some cs =>
    match parseVal cs.length cs with
    | some (.arr xs, []) => if xs.isEmpty then none else some xs
    | _ => none

-- =============================================================================
-- MIME TYPE & EXTENSION FILTERING (implementation absent from src/;
-- modelled from spec section 4.4 and the constants exercised by the
-- test suite src/unnamed/part_000)
-- =============================================================================

/-- Modelled from the spec: the fixed allow-list ALLOWED_MIME_TYPES of
exact MIME strings and MIME-prefix strings, whose implementation is not
under src/; the entries are the ones the test suite requires the list to
contain (exact web, legacy and modern types plus the image/, audio/,
video/ and font/ category entries). -/
def allowedMimeTypes : List (List Char) :=
  [jstr ("text/html"), jstr ("text/css"), jstr ("text/plain"),
   jstr ("text/markdown"), jstr ("text/javascript"),
   jstr ("application/javascript"), jstr ("application/json"),
   jstr ("application/wasm"), jstr ("application/pdf"),
   jstr ("application/font-woff"), jstr ("application/x-font-woff"),
   jstr ("application/manifest+json"), jstr ("model/gltf+json"),
   jstr ("model/gltf-binary"),
   jstr ("image/"), jstr ("audio/"), jstr ("video/"), jstr ("font/")]

/-- Modelled from the spec: `isAllowedMimeType`, whose implementation is
not under src/.  Per spec section 4.4 a candidate is allowed when it
exactly equals a listed entry or starts with a listed entry, matching
case-sensitively, with parameter-carrying MIME strings accepted through
the same prefix containment rather than parameter stripping; equality
is the boundary case of the prefix test. -/
def isAllowedMimeType (mime : List Char) : Bool :=
  allowedMimeTypes.any (fun entry => entry.isPrefixOf mime)

/-- Modelled from the spec: the fixed block-list BLOCKED_EXTENSIONS of
lowercase extensions (executables, disk images, dangerous scripts,
installers, Java, mobile and browser packages, shortcut and link
files), whose implementation is not under src/; the entries are the
ones the test suite requires the set to contain. -/
def blockedExtensions : List (List Char) :=
  [jstr ("exe"), jstr ("msi"), jstr ("dll"), jstr ("scr"), jstr ("bat"),
   jstr ("cmd"), jstr ("com"), jstr ("pif"), jstr ("app"), jstr ("deb"),
   jstr ("rpm"), jstr ("dmg"), jstr ("iso"), jstr ("img"),
   jstr ("ps1"), jstr ("vbs"), jstr ("vbe"), jstr ("ws"), jstr ("wsf"),
   jstr ("wsc"), jstr ("wsh"), jstr ("reg"), jstr ("pkg"), jstr ("mpkg"),
   jstr ("jar"), jstr ("jnlp"), jstr ("apk"), jstr ("crx"),
   jstr ("lnk"), jstr ("inf"), jstr ("hta")]

/-- Modelled from the spec: `isBlockedExtension`, whose implementation
is not under src/.  Per spec section 4.4 classification is by the last
extension segment of the filename (the part after the final dot),
lowercased and looked up in the block-list; a filename without a dot
has no extension and is never blocked, and one ending in a bare dot has
the empty segment, which is not in the list. -/
def isBlockedExtension (filename : List Char) : Bool :=
  if filename.contains '.' then
    let ext := (filename.reverse.takeWhile (fun c => c != '.')).reverse
    blockedExtensions.contains (ext.map Char.toLower)
  else false

-- =============================================================================
-- THEOREMS
-- =============================================================================

/- Shared helper: takeWhile and dropWhile cut a list exactly at the
first element violating the predicate. -/

theorem takeWhile_append_all {α : Type} {p : α → Bool} :
    ∀ (a : List α) (x : α) (r : List α), a.all p = true → p x = false →
      (a ++ x :: r).takeWhile p = a ∧ (a ++ x :: r).dropWhile p = x :: r
  | [], x, r, _, hx => by
      simp [List.takeWhile_cons, List.dropWhile_cons, hx]
  | c :: a', x, r, ha, hx => by
      simp only [List.all_cons, Bool.and_eq_true] at ha
      have ih := takeWhile_append_all a' x r ha.2 hx
      simp [List.takeWhile_cons, List.dropWhile_cons, ha.1, ih.1, ih.2]

/-- C1: for every ShipError e whose type is not ErrorType.Authentication,
ShipError.fromResponse (ShipError.toResponse e) yields an error with
type, message, status and details identical to those of e, so
fromResponse is a left-inverse of toResponse on all non-Authentication
kinds. -/
theorem c1_fromResponse_leftInverse_toResponse (e : ShipError)
    (h : e.type ≠ ErrorType.Authentication) :
    ShipError.fromResponse (ShipError.toResponse e) = e := by
  have hb : (e.type == ErrorType.Authentication) = false := beq_eq_false_iff_ne.mpr h
  cases e with
  | mk t m s d =>
    simp only at hb
    simp [ShipError.toResponse, ShipError.fromResponse, hb]

/-- Witness for C1 at a concrete Validation error. -/
theorem c1_witness :
    ShipError.fromResponse (ShipError.toResponse
      ⟨ErrorType.Validation, "boom", some 400, JSValue.obj [("internal", JSValue.bool true)]⟩)
    = ⟨ErrorType.Validation, "boom", some 400, JSValue.obj [("internal", JSValue.bool true)]⟩ :=
  c1_fromResponse_leftInverse_toResponse _ (by decide)

/-- C2: toResponse omits the details payload exactly when the error is
an Authentication error whose details carry a truthy internal marker;
in every other case the four fields pass through unchanged. -/
theorem c2_toResponse_internal_details (e : ShipError) :
    (e.type = ErrorType.Authentication ∧ truthy (getField e.details ("internal")) = true →
      e.toResponse = ⟨e.type, e.message, e.status, JSValue.undefined⟩) ∧
    (¬(e.type = ErrorType.Authentication ∧ truthy (getField e.details ("internal")) = true) →
      e.toResponse = ⟨e.type, e.message, e.status, e.details⟩) := by
  constructor
  · rintro ⟨h1, h2⟩
    simp [ShipError.toResponse, h1, h2]
  · intro h
    by_cases ht : e.type = ErrorType.Authentication
    · have hd : truthy (getField e.details ("internal")) = false := by
        rcases Bool.eq_false_or_eq_true (truthy (getField e.details ("internal"))) with h0 | h0
        · exact absurd ⟨ht, h0⟩ h
        · exact h0
      simp [ShipError.toResponse, ht, hd]
    · have hb : (e.type == ErrorType.Authentication) = false := beq_eq_false_iff_ne.mpr ht
      simp [ShipError.toResponse, hb]

/-- Witness for C2 at an Authentication error with an internal marker. -/
theorem c2_witness :
    ShipError.toResponse
      ⟨ErrorType.Authentication, "auth", some 401, JSValue.obj [("internal", JSValue.bool true)]⟩
    = ⟨ErrorType.Authentication, "auth", some 401, JSValue.undefined⟩ :=
  (c2_toResponse_internal_details _).1 ⟨rfl, rfl⟩

/-- C10: every factory method produces one of the ten fixed ErrorType
members; database and storage produce kind Api; the factories assign
the fixed statuses 400 (validation, business default), 404 (notFound),
429 (rateLimit), 401 (authentication), 500 (api, database, storage
default) and none for network, cancelled, file and config. -/
theorem c10_factory_types_and_statuses :
    ∀ (m r : String) (i om : Option String) (d cz fp : JSValue) (st : Option Int),
      ((ShipError.validation m d).type = ErrorType.Validation ∧
        (ShipError.validation m d).type ∈ allErrorTypes ∧
        (ShipError.validation m d).status = some 400) ∧
      ((ShipError.notFound r i).type = ErrorType.NotFound ∧
        (ShipError.notFound r i).type ∈ allErrorTypes ∧
        (ShipError.notFound r i).status = some 404) ∧
      ((ShipError.rateLimit om).type = ErrorType.RateLimit ∧
        (ShipError.rateLimit om).type ∈ allErrorTypes ∧
        (ShipError.rateLimit om).status = some 429) ∧
      ((ShipError.authentication om d).type = ErrorType.Authentication ∧
        (ShipError.authentication om d).type ∈ allErrorTypes ∧
        (ShipError.authentication om d).status = some 401) ∧
      ((ShipError.business m st).type = ErrorType.Business ∧
        (ShipError.business m st).type ∈ allErrorTypes ∧
        (ShipError.business m none).status = some 400) ∧
      ((ShipError.network m cz).type = ErrorType.Network ∧
        (ShipError.network m cz).type ∈ allErrorTypes ∧
        (ShipError.network m cz).status = none) ∧
      ((ShipError.cancelled m).type = ErrorType.Cancelled ∧
        (ShipError.cancelled m).type ∈ allErrorTypes ∧
        (ShipError.cancelled m).status = none) ∧
      ((ShipError.file m fp).type = ErrorType.File ∧
        (ShipError.file m fp).type ∈ allErrorTypes ∧
        (ShipError.file m fp).status = none) ∧
      ((ShipError.config m d).type = ErrorType.Config ∧
        (ShipError.config m d).type ∈ allErrorTypes ∧
        (ShipError.config m d).status = none) ∧
      ((ShipError.api m st).type = ErrorType.Api ∧
        (ShipError.api m st).type ∈ allErrorTypes ∧
        (ShipError.api m none).status = some 500) ∧
      ((ShipError.database m st).type = ErrorType.Api ∧
        (ShipError.database m st).type ∈ allErrorTypes ∧
        (ShipError.database m none).status = some 500) ∧
      ((ShipError.storage m st).type = ErrorType.Api ∧
        (ShipError.storage m st).type ∈ allErrorTypes ∧
        (ShipError.storage m none).status = some 500) := by
  intro m r i om d cz fp st
  refine ⟨⟨rfl, ?_, rfl⟩, ⟨rfl, ?_, rfl⟩, ⟨rfl, ?_, rfl⟩, ⟨rfl, ?_, rfl⟩,
    ⟨rfl, ?_, rfl⟩, ⟨rfl, ?_, rfl⟩, ⟨rfl, ?_, rfl⟩, ⟨rfl, ?_, rfl⟩,
    ⟨rfl, ?_, rfl⟩, ⟨rfl, ?_, rfl⟩, ⟨rfl, ?_, rfl⟩, ⟨rfl, ?_, rfl⟩⟩ <;>
  simp [ShipError.validation, ShipError.notFound, ShipError.rateLimit,
    ShipError.authentication, ShipError.business, ShipError.network,
    ShipError.cancelled, ShipError.file, ShipError.config, ShipError.api,
    ShipError.database, ShipError.storage, allErrorTypes]

/-- C6 counterexample: the second generateDomainUrl variant does not
return "https://" ++ domain for a domain without a dot; it appends the
default sites domain, so the claim as stated fails at domain "blog". -/
theorem c6_counterexample :
    generateDomainUrlV2 ("blog") none ≠ "https://" ++ "blog" := by
  decide

/-- C6 amended: the first-variant generateDomainUrl returns
"https://" ++ domain for every domain, regardless of dots; the second
variant does so exactly for domains containing a dot, and for dotless
domains appends "." and the sites domain (defaulted to statichost.dev
when absent or empty). -/
theorem c6_generateDomainUrl_amended :
    (∀ d : String, generateDomainUrl d = "https://" ++ d) ∧
    (∀ (d : String) (sd : Option String), d.data.contains '.' = true →
      generateDomainUrlV2 d sd = "https://" ++ d) ∧
    (∀ d : String, d.data.contains '.' = false →
      generateDomainUrlV2 d none = "https://" ++ d ++ "." ++ "statichost.dev") ∧
    (∀ d : String, d.data.contains '.' = false →
      generateDomainUrlV2 d (some "") = "https://" ++ d ++ "." ++ "statichost.dev") ∧
    (∀ (d s : String), d.data.contains '.' = false → s ≠ "" →
      generateDomainUrlV2 d (some s) = "https://" ++ d ++ "." ++ s) := by
  refine ⟨fun d => rfl, fun d sd h => ?_, fun d h => ?_, fun d h => ?_, fun d s h hs => ?_⟩
  · simp only [generateDomainUrlV2]
    rw [if_pos h]
  · simp only [generateDomainUrlV2]
    rw [if_neg (by rw [h]; simp)]
  · simp only [generateDomainUrlV2]
    rw [if_neg (by rw [h]; simp)]
    simp
  · have hb : (s == "") = false := beq_eq_false_iff_ne.mpr hs
    simp only [generateDomainUrlV2]
    rw [if_neg (by rw [h]; simp)]
    simp [hb]

/-- Witness for C6 amended at a dotted and a dotless domain. -/
theorem c6_witness :
    generateDomainUrlV2 ("example.com") none = "https://" ++ "example.com" ∧
    generateDomainUrlV2 ("blog") none = "https://" ++ "blog" ++ "." ++ "statichost.dev" :=
  ⟨c6_generateDomainUrl_amended.2.1 ("example.com") none (by decide),
   c6_generateDomainUrl_amended.2.2.1 ("blog") (by decide)⟩

/-- C7 counterexample: the claim states that non-type/subtype strings
are rejected, but prefix containment accepts "image/png/extra", which
carries two slashes and is not of type/subtype shape. -/
theorem c7_counterexample :
    isAllowedMimeType (jstr ("image/png/extra")) = true ∧
    (jstr ("image/png/extra")).count '/' ≠ 1 := by
  decide

/-- C7 amended: isAllowedMimeType m is true exactly when m starts with
an entry of the fixed allow-list (exact equality being the boundary
case of the prefix test); matching is case-sensitive, so uppercase
forms of allowed types are rejected; the empty string is rejected; the
claimed examples hold; but a string extending a listed entry is
accepted even when it is not of type/subtype shape. -/
theorem c7_isAllowedMimeType_amended :
    (∀ m : List Char, isAllowedMimeType m = true ↔
      ∃ t ∈ allowedMimeTypes, t.isPrefixOf m = true) ∧
    isAllowedMimeType (jstr ("image/png")) = true ∧
    isAllowedMimeType (jstr ("IMAGE/PNG")) = false ∧
    isAllowedMimeType (jstr ("text/html; charset=utf-8")) = true ∧
    isAllowedMimeType (jstr ("")) = false ∧
    isAllowedMimeType (jstr ("application/x-msdownload")) = false ∧
    isAllowedMimeType (jstr ("TEXT/HTML")) = false :=
  ⟨fun m => by simp [isAllowedMimeType, List.any_eq_true],
   by decide, by decide, by decide, by decide, by decide, by decide⟩

/-- Witness for C7 amended: a prefix-entry match obtained through the
equivalence. -/
theorem c7_witness : isAllowedMimeType (jstr ("font/woff2")) = true :=
  (c7_isAllowedMimeType_amended.1 (jstr ("font/woff2"))).mpr
    ⟨jstr ("font/"), by decide, by decide⟩

/-- C8: isBlockedExtension decides by the last extension segment alone,
lowercased and looked up in the block-list; filenames without a dot or
ending in a bare dot are never blocked; and the five claimed examples
evaluate as stated. -/
theorem c8_isBlockedExtension_lastSegment :
    isBlockedExtension (jstr ("virus.EXE")) = true ∧
    isBlockedExtension (jstr ("image.jpg.exe")) = true ∧
    isBlockedExtension (jstr ("safe.exe.txt")) = false ∧
    isBlockedExtension (jstr ("README")) = false ∧
    isBlockedExtension (jstr (".gitignore")) = false ∧
    (∀ f : List Char, f.contains '.' = false → isBlockedExtension f = false) ∧
    (∀ f : List Char, isBlockedExtension (f ++ ['.']) = false) ∧
    (∀ f ext : List Char, ext.contains '.' = false →
      isBlockedExtension (f ++ '.' :: ext) =
        blockedExtensions.contains (ext.map Char.toLower)) := by
  refine ⟨by decide, by decide, by decide, by decide, by decide, ?_, ?_, ?_⟩
  · intro f h
    simp only [isBlockedExtension]
    rw [if_neg (by rw [h]; simp)]
  · intro f
    simp only [isBlockedExtension]
    rw [if_pos (by simp)]
    have hrev : (f ++ ['.']).reverse = '.' :: f.reverse := by simp
    rw [hrev]
    rw [List.takeWhile_cons_of_neg (by simp)]
    decide
  · intro f ext h
    have hall : ext.reverse.all (fun c => c != '.') = true := by
      rw [List.all_reverse]
      rw [List.all_eq_true]
      intro x hx
      have : x ≠ '.' := by
        intro hxe
        subst hxe
        have := List.elem_eq_true_of_mem hx
        rw [show ext.contains '.' = ext.elem '.' from rfl] at h
        rw [this] at h
        exact Bool.true_eq_false.mp h
      simpa using this
    have hrev : (f ++ '.' :: ext).reverse = ext.reverse ++ '.' :: f.reverse := by
      simp
    have hcut := takeWhile_append_all ext.reverse '.' f.reverse hall (by decide)
    simp only [isBlockedExtension]
    rw [if_pos (by simp)]
    rw [hrev, hcut.1]
    simp


/-- C4: on a successful parse satisfying the spec conditions (http or
https scheme, empty or root path, no query, no fragment) validateApiUrl
returns normally; every failure produces this package's Validation
kind; its own inner Validation errors come out unchanged (protocol,
path and query/fragment messages respectively), and a foreign parse
failure is converted into the generic "API URL must be a valid URL"
Validation error rather than escaping. -/
theorem c4_validateApiUrl (p : Option URLParts) :
    (apiUrlSpecOk p = true → validateApiUrl p = .ok ()) ∧
    (apiUrlSpecOk p = false → ∃ e, validateApiUrl p = .error e) ∧
    (∀ e, validateApiUrl p = .error e →
      e.type = ErrorType.Validation ∧ e.status = some 400 ∧ e.details = JSValue.undefined) ∧
    (p = none → validateApiUrl p =
      .error (ShipError.validation ("API URL must be a valid URL") .undefined)) ∧
    (∀ u, p = some u → (u.protocol == "http:" || u.protocol == "https:") = false →
      validateApiUrl p =
        .error (ShipError.validation ("API URL must use http:// or https:// protocol") .undefined)) ∧
    (∀ u, p = some u → (u.protocol == "http:" || u.protocol == "https:") = true →
      (u.pathname != "/" && u.pathname != "") = true →
      validateApiUrl p =
        .error (ShipError.validation ("API URL must not contain a path") .undefined)) ∧
    (∀ u, p = some u → (u.protocol == "http:" || u.protocol == "https:") = true →
      (u.pathname != "/" && u.pathname != "") = false →
      (u.search != "" || u.hash != "") = true →
      validateApiUrl p =
        .error (ShipError.validation ("API URL must not contain query parameters or fragments") .undefined)) := by
  cases p with
  | none =>
    refine ⟨?_, ?_, ?_, ?_, ?_, ?_, ?_⟩
    · intro h
      simp [apiUrlSpecOk] at h
    · intro _
      exact ⟨ShipError.validation ("API URL must be a valid URL") .undefined, rfl⟩
    · intro e he
      simp only [validateApiUrl, validateApiUrlTry] at he
      cases he
      exact ⟨rfl, rfl, rfl⟩
    · intro _
      rfl
    · intro u hu
      cases hu
    · intro u hu
      cases hu
    · intro u hu
      cases hu
  | some u =>
    rcases Bool.eq_false_or_eq_true (u.protocol == "http:" || u.protocol == "https:") with h1 | h1
    · -- protocol condition true: go on to the path check
      rcases Bool.eq_false_or_eq_true (u.pathname != "/" && u.pathname != "") with h2 | h2
      · -- non-root path: the path error is raised and re-raised unchanged
        have etry : validateApiUrlTry (some u) =
            .error (.ship (ShipError.validation ("API URL must not contain a path") .undefined)) := by
          simp only [validateApiUrlTry]
          rw [h1, h2]
          rfl
        have hval : validateApiUrl (some u) =
            .error (ShipError.validation ("API URL must not contain a path") .undefined) := by
          simp [validateApiUrl, etry]
        have hne : u.pathname ≠ "/" ∧ u.pathname ≠ "" := by simpa using h2
        have hy : (u.pathname == "/" || u.pathname == "") = false :=
          Bool.or_eq_false_iff.mpr
            ⟨beq_eq_false_iff_ne.mpr hne.1, beq_eq_false_iff_ne.mpr hne.2⟩
        refine ⟨?_, ?_, ?_, ?_, ?_, ?_, ?_⟩
        · intro h
          exfalso
          simp only [apiUrlSpecOk] at h
          rw [hy] at h
          simp at h
        · intro _
          exact ⟨_, hval⟩
        · intro e he
          rw [hval] at he
          cases he
          exact ⟨rfl, rfl, rfl⟩
        · intro hn
          cases hn
        · intro v hv hproto
          have hv' := Option.some.inj hv
          subst hv'
          rw [h1] at hproto
          cases hproto
        · intro v hv _ _
          have hv' := Option.some.inj hv
          subst hv'
          exact hval
        · intro v hv _ hpath
          have hv' := Option.some.inj hv
          subst hv'
          rw [h2] at hpath
          cases hpath
      · -- path ok: go on to the query/fragment check
        rcases Bool.eq_false_or_eq_true (u.search != "" || u.hash != "") with h3 | h3
        · -- query or fragment present: that error is raised unchanged
          have etry : validateApiUrlTry (some u) =
              .error (.ship (ShipError.validation
                ("API URL must not contain query parameters or fragments") .undefined)) := by
            simp only [validateApiUrlTry]
            rw [h1, h2, h3]
            rfl
          have hval : validateApiUrl (some u) =
              .error (ShipError.validation
                ("API URL must not contain query parameters or fragments") .undefined) := by
            simp [validateApiUrl, etry]
          refine ⟨?_, ?_, ?_, ?_, ?_, ?_, ?_⟩
          · intro h
            exfalso
            simp only [apiUrlSpecOk] at h
            have hne3 : u.search ≠ "" ∨ u.hash ≠ "" := by simpa using h3
            rcases hne3 with h3' | h3'
            · rw [show (u.search == "") = false from beq_eq_false_iff_ne.mpr h3'] at h
              simp at h
            · rw [show (u.hash == "") = false from beq_eq_false_iff_ne.mpr h3'] at h
              simp at h
          · intro _
            exact ⟨_, hval⟩
          · intro e he
            rw [hval] at he
            cases he
            exact ⟨rfl, rfl, rfl⟩
          · intro hn
            cases hn
          · intro v hv hproto
            have hv' := Option.some.inj hv
            subst hv'
            rw [h1] at hproto
            cases hproto
          · intro v hv _ hpath
            have hv' := Option.some.inj hv
            subst hv'
            rw [h2] at hpath
            cases hpath
          · intro v hv _ _ _
            have hv' := Option.some.inj hv
            subst hv'
            exact hval
        · -- all checks pass: ok
          have etry : validateApiUrlTry (some u) = .ok () := by
            simp only [validateApiUrlTry]
            rw [h1, h2, h3]
            rfl
          have hval : validateApiUrl (some u) = .ok () := by
            simp [validateApiUrl, etry]
          refine ⟨fun _ => hval, ?_, ?_, ?_, ?_, ?_, ?_⟩
          · intro h
            exfalso
            simp only [Bool.and_eq_false_iff, bne_eq_false_iff_eq] at h2
            simp only [Bool.or_eq_false_iff, bne_eq_false_iff_eq] at h3
            have hpath : (u.pathname == "/" || u.pathname == "") = true := by
              rcases h2 with hp | hp
              · simp [hp]
              · simp [hp]
            simp only [apiUrlSpecOk] at h
            rw [h1, hpath, beq_iff_eq.mpr h3.1, beq_iff_eq.mpr h3.2] at h
            simp at h
          · intro e he
            rw [hval] at he
            cases he
          · intro hn
            cases hn
          · intro v hv hproto
            have hv' := Option.some.inj hv
            subst hv'
            rw [h1] at hproto
            cases hproto
          · intro v hv _ hpath
            have hv' := Option.some.inj hv
            subst hv'
            rw [h2] at hpath
            cases hpath
          · intro v hv _ _ hsh
            have hv' := Option.some.inj hv
            subst hv'
            rw [h3] at hsh
            cases hsh
    · -- bad protocol: the protocol error is raised and re-raised unchanged
      have etry : validateApiUrlTry (some u) =
          .error (.ship (ShipError.validation
            ("API URL must use http:// or https:// protocol") .undefined)) := by
        simp only [validateApiUrlTry]
        rw [h1]
        rfl
      have hval : validateApiUrl (some u) =
          .error (ShipError.validation
            ("API URL must use http:// or https:// protocol") .undefined) := by
        simp [validateApiUrl, etry]
      refine ⟨?_, ?_, ?_, ?_, ?_, ?_, ?_⟩
      · intro h
        exfalso
        simp only [apiUrlSpecOk] at h
        rw [h1] at h
        simp at h
      · intro _
        exact ⟨_, hval⟩
      · intro e he
        rw [hval] at he
        cases he
        exact ⟨rfl, rfl, rfl⟩
      · intro hn
        cases hn
      · intro v hv _
        have hv' := Option.some.inj hv
        subst hv'
        exact hval
      · intro v hv hproto
        have hv' := Option.some.inj hv
        subst hv'
        rw [h1] at hproto
        cases hproto
      · intro v hv hproto
        have hv' := Option.some.inj hv
        subst hv'
        rw [h1] at hproto
        cases hproto

/-- Witness for C4 at a well-formed https root URL and at a parse
failure. -/
theorem c4_witness :
    validateApiUrl (some ⟨"https:", "/", "", ""⟩) = .ok () ∧
    validateApiUrl none =
      .error (ShipError.validation ("API URL must be a valid URL") .undefined) :=
  ⟨(c4_validateApiUrl (some ⟨"https:", "/", "", ""⟩)).1 (by decide),
   (c4_validateApiUrl none).2.2.2.1 rfl⟩

/-- C9: isDeployment (and the identical validateSubdomain) is a total
boolean predicate returning true exactly on strings of the shape
letters, hyphen, letters, hyphen, exactly 7 alphanumerics, matched
case-insensitively; the three claimed examples evaluate as stated. -/
theorem c9_isDeployment_shape :
    (∀ s : List Char, isDeployment s = true ↔ deploymentSpecShape s) ∧
    isDeployment (jstr ("happy-cat-abc1234")) = true ∧
    isDeployment (jstr ("a-b-1234567")) = true ∧
    isDeployment (jstr ("Happy-Cat1")) = false := by
  refine ⟨?_, by decide, by decide, by decide⟩
  intro s
  constructor
  · intro h
    simp only [isDeployment] at h
    split at h
    case h_2 => cases h
    case h_1 r1 heq =>
      split at h
      case isTrue => cases h
      case isFalse hane =>
        split at h
        case h_2 => cases h
        case h_1 r2 heq2 =>
          split at h
          case isTrue => cases h
          case isFalse hbne =>
            simp only [Bool.and_eq_true, beq_iff_eq] at h
            refine ⟨s.takeWhile isLetterChar, r1.takeWhile isLetterChar, r2, ?_, ?_, ?_,
              List.all_takeWhile, List.all_takeWhile, h.1, h.2⟩
            · conv =>
                lhs
                rw [← List.takeWhile_append_dropWhile (p := isLetterChar) (l := s)]
              rw [heq]
              congr 1
              conv =>
                lhs
                rw [← List.takeWhile_append_dropWhile (p := isLetterChar) (l := r1)]
              rw [heq2]
            · intro hnil
              exact hane (by rw [hnil]; rfl)
            · intro hnil
              exact hbne (by rw [hnil]; rfl)
  · rintro ⟨a, b, c, rfl, ha, hb, haall, hball, hclen, hcall⟩
    obtain ⟨a0, a', rfl⟩ : ∃ a0 a', a = a0 :: a' := by
      cases a with
      | nil => exact absurd rfl ha
      | cons a0 a' => exact ⟨a0, a', rfl⟩
    obtain ⟨b0, b', rfl⟩ : ∃ b0 b', b = b0 :: b' := by
      cases b with
      | nil => exact absurd rfl hb
      | cons b0 b' => exact ⟨b0, b', rfl⟩
    have hf : isLetterChar '-' = false := by decide
    have cut1 := takeWhile_append_all (a0 :: a') '-' ((b0 :: b') ++ '-' :: c) haall hf
    have cut2 := takeWhile_append_all (b0 :: b') '-' c hball hf
    simp only [isDeployment]
    rw [cut1.2]
    simp only [cut1.1]
    rw [cut2.2]
    simp only [cut2.1]
    simp [hclen, hcall]

/-- Witness for C9: the equivalence applied at a concrete identifier
built from its decomposition. -/
theorem c9_witness : isDeployment (jstr ("proud-fox-a1b2c3d")) = true :=
  (c9_isDeployment_shape.1 (jstr ("proud-fox-a1b2c3d"))).mpr
    ⟨jstr ("proud"), jstr ("fox"), jstr ("a1b2c3d"), by decide, by decide, by decide,
     by decide, by decide, by decide, by decide⟩

/-- C3: validateApiKey returns normally exactly on strings matching the
pattern prefix "ship-", total length 69, and 64 case-insensitive hex
characters after the prefix; every failure raises this package's
Validation kind. -/
theorem c3_validateApiKey (s : List Char) :
    (validateApiKey s = .ok () ↔ apiKeySpecPattern s) ∧
    (∀ e, validateApiKey s = .error e → e.type = ErrorType.Validation ∧ e.status = some 400) ∧
    (¬ apiKeySpecPattern s → ∃ e, validateApiKey s = .error e ∧ e.type = ErrorType.Validation) := by
  rcases Bool.eq_false_or_eq_true (apiKeyStart.isPrefixOf s) with hp | hp
  · -- prefix present
    obtain ⟨t, ht⟩ : ∃ t, apiKeyStart ++ t = s :=
      List.isPrefixOf_iff_prefix.mp hp
    have hdrop : s.drop apiKeyStart.length = t := by
      rw [← ht]
      exact List.drop_left apiKeyStart t
    have hslen : s.length = apiKeyStart.length + t.length := by
      rw [← ht, List.length_append]
    by_cases hl : s.length = apiKeyTotalLen
    · have htlen : t.length = 64 := by
        have h5 : apiKeyStart.length = 5 := rfl
        have h69 : apiKeyTotalLen = 69 := rfl
        omega
      rcases Bool.eq_false_or_eq_true (hex64 (s.drop apiKeyStart.length)) with hh | hh
      · -- all checks pass
        have hta : t.all isHexChar = true := by
          rw [hdrop] at hh
          simp only [hex64, Bool.and_eq_true] at hh
          exact hh.2
        have hpat : apiKeySpecPattern s := ⟨t, ht.symm, htlen, hta⟩
        have hval : validateApiKey s = .ok () := by
          simp [validateApiKey, hp, hl, hh]
        refine ⟨⟨fun _ => hpat, fun _ => hval⟩, ?_, fun hns => absurd hpat hns⟩
        intro e he
        rw [hval] at he
        cases he
      · -- hex check fails
        have hval : validateApiKey s =
            .error (ShipError.validation
              ("API key must contain 64 hexadecimal characters after \"ship-\" prefix")
              .undefined) := by
          simp only [validateApiKey]
          rw [hp]
          simp only [Bool.not_true, Bool.false_eq_true, if_false]
          rw [if_neg (by rw [hl]; simp), if_pos (by rw [hh]; simp)]
        have hnpat : ¬ apiKeySpecPattern s := by
          rintro ⟨t', ht', htl', hta'⟩
          have htt : t' = t := (List.append_cancel_left (ht.trans ht')).symm
          rw [hdrop] at hh
          simp only [hex64] at hh
          rw [← htt] at hh
          rw [show (t'.length == 64) = true by simp [htl'], hta'] at hh
          simp at hh
        refine ⟨⟨fun hok => ?_, fun hpat => absurd hpat hnpat⟩, ?_, fun _ => ⟨_, hval, rfl⟩⟩
        · rw [hval] at hok
          cases hok
        · intro e he
          rw [hval] at he
          cases he
          exact ⟨rfl, rfl⟩
    · -- length check fails
      have hval : validateApiKey s =
          .error (ShipError.validation
            ("API key must be 69 characters total (ship- + 64 hex chars)") .undefined) := by
        simp only [validateApiKey]
        rw [hp]
        simp only [Bool.not_true, Bool.false_eq_true, if_false]
        rw [if_pos (by simp [bne_iff_ne]; exact hl)]
      have hnpat : ¬ apiKeySpecPattern s := by
        rintro ⟨t', ht', htl', hta'⟩
        apply hl
        rw [ht', List.length_append, htl']
        rfl
      refine ⟨⟨fun hok => ?_, fun hpat => absurd hpat hnpat⟩, ?_, fun _ => ⟨_, hval, rfl⟩⟩
      · rw [hval] at hok
        cases hok
      · intro e he
        rw [hval] at he
        cases he
        exact ⟨rfl, rfl⟩
  · -- prefix absent
    have hval : validateApiKey s =
        .error (ShipError.validation ("API key must start with \"ship-\"") .undefined) := by
      simp only [validateApiKey]
      rw [if_pos (by rw [hp]; simp)]
    have hnpat : ¬ apiKeySpecPattern s := by
      rintro ⟨t', ht', _, _⟩
      rw [show apiKeyStart.isPrefixOf s = true from
        List.isPrefixOf_iff_prefix.mpr ⟨t', ht'.symm⟩] at hp
      cases hp
    refine ⟨⟨fun hok => ?_, fun hpat => absurd hpat hnpat⟩, ?_, fun _ => ⟨_, hval, rfl⟩⟩
    · rw [hval] at hok
      cases hok
    · intro e he
      rw [hval] at he
      cases he
      exact ⟨rfl, rfl⟩

/-- Witness for C3 at a concrete valid key and at a concrete rejected
key. -/
theorem c3_witness :
    validateApiKey (jstr ("ship-") ++ List.replicate 64 'a') = .ok () ∧
    ∃ e, validateApiKey (jstr ("not-a-key")) = .error e ∧ e.type = ErrorType.Validation :=
  ⟨(c3_validateApiKey (jstr ("ship-") ++ List.replicate 64 'a')).1.mpr
    ⟨List.replicate 64 'a', by decide, by decide, by decide⟩,
   (c3_validateApiKey (jstr ("not-a-key"))).2.2 (by
     rintro ⟨t, ht, htl, hta⟩
     have : apiKeyStart.isPrefixOf (jstr ("not-a-key")) = true :=
       List.isPrefixOf_iff_prefix.mpr ⟨t, ht.symm⟩
     cases this)⟩


/- Helper lemmas for the tag serialization round trip. -/

theorem hexDigitVal_digitChar (n : Nat) (h : n < 16) :
    hexDigitVal (Nat.digitChar n) = some n := by
  interval_cases n <;> decide

theorem escChar_flatten_len : ∀ x : List Char, x.length ≤ ((x.map escChar).flatten).length
  | [] => by simp
  | c :: x' => by
    have ih := escChar_flatten_len x'
    have h1 : 1 ≤ (escChar c).length := by
      unfold escChar
      split_ifs <;> simp
    simp only [List.map_cons, List.flatten_cons, List.length_append, List.length_cons]
    omega

theorem parseStringBody_escape : ∀ (x : List Char) (f : Nat) (rest : List Char),
    x.length + 1 ≤ f →
    parseStringBody f ((x.map escChar).flatten ++ '"' :: rest) = some (x, rest)
  | [], f, rest, hf => by
    obtain ⟨f1, rfl⟩ : ∃ f1, f = f1 + 1 := ⟨f - 1, by omega⟩
    rfl
  | c :: x', f, rest, hf => by
    obtain ⟨f1, rfl⟩ : ∃ f1, f = f1 + 1 := ⟨f - 1, by omega⟩
    have ih := parseStringBody_escape x' f1 rest
      (by simp only [List.length_cons] at hf; omega)
    by_cases h1 : c = '"'
    · subst h1
      rw [List.map_cons, List.flatten_cons, show escChar '"' = ['\\', '"'] from rfl]
      simp only [List.cons_append, List.nil_append, List.append_assoc]
      rw [show ∀ (g : Nat) (T : List Char), parseStringBody (g + 1) ('\\' :: '"' :: T) =
        (parseStringBody g T).map (fun sr => ('"' :: sr.1, sr.2)) from fun g T => rfl]
      rw [ih]
      rfl
    · by_cases h2 : c = '\\'
      · subst h2
        rw [List.map_cons, List.flatten_cons, show escChar '\\' = ['\\', '\\'] from rfl]
        simp only [List.cons_append, List.nil_append, List.append_assoc]
        rw [show ∀ (g : Nat) (T : List Char), parseStringBody (g + 1) ('\\' :: '\\' :: T) =
          (parseStringBody g T).map (fun sr => ('\\' :: sr.1, sr.2)) from fun g T => rfl]
        rw [ih]
        rfl
      · by_cases hcb : c = '\x08'
        · subst hcb
          rw [List.map_cons, List.flatten_cons, show escChar '\x08' = ['\\', 'b'] from rfl]
          simp only [List.cons_append, List.nil_append, List.append_assoc]
          rw [show ∀ (g : Nat) (T : List Char), parseStringBody (g + 1) ('\\' :: 'b' :: T) =
            (parseStringBody g T).map (fun sr => ('\x08' :: sr.1, sr.2)) from fun g T => rfl]
          rw [ih]
          rfl
        · by_cases hct : c = '\x09'
          · subst hct
            rw [List.map_cons, List.flatten_cons, show escChar '\x09' = ['\\', 't'] from rfl]
            simp only [List.cons_append, List.nil_append, List.append_assoc]
            rw [show ∀ (g : Nat) (T : List Char), parseStringBody (g + 1) ('\\' :: 't' :: T) =
              (parseStringBody g T).map (fun sr => ('\x09' :: sr.1, sr.2)) from fun g T => rfl]
            rw [ih]
            rfl
          · by_cases hcn : c = '\x0a'
            · subst hcn
              rw [List.map_cons, List.flatten_cons, show escChar '\x0a' = ['\\', 'n'] from rfl]
              simp only [List.cons_append, List.nil_append, List.append_assoc]
              rw [show ∀ (g : Nat) (T : List Char), parseStringBody (g + 1) ('\\' :: 'n' :: T) =
                (parseStringBody g T).map (fun sr => ('\x0a' :: sr.1, sr.2)) from fun g T => rfl]
              rw [ih]
              rfl
            · by_cases hcf : c = '\x0c'
              · subst hcf
                rw [List.map_cons, List.flatten_cons, show escChar '\x0c' = ['\\', 'f'] from rfl]
                simp only [List.cons_append, List.nil_append, List.append_assoc]
                rw [show ∀ (g : Nat) (T : List Char), parseStringBody (g + 1) ('\\' :: 'f' :: T) =
                  (parseStringBody g T).map (fun sr => ('\x0c' :: sr.1, sr.2)) from fun g T => rfl]
                rw [ih]
                rfl
              · by_cases hcr : c = '\x0d'
                · subst hcr
                  rw [List.map_cons, List.flatten_cons, show escChar '\x0d' = ['\\', 'r'] from rfl]
                  simp only [List.cons_append, List.nil_append, List.append_assoc]
                  rw [show ∀ (g : Nat) (T : List Char), parseStringBody (g + 1) ('\\' :: 'r' :: T) =
                    (parseStringBody g T).map (fun sr => ('\x0d' :: sr.1, sr.2)) from fun g T => rfl]
                  rw [ih]
                  rfl
                · by_cases hctl : c.toNat < 0x20
                  · -- other control characters escaped as \u00XX
                    have hesc : escChar c =
                        ['\\', 'u', '0', '0', Nat.digitChar (c.toNat / 16),
                         Nat.digitChar (c.toNat % 16)] := by
                      simp [escChar, h1, h2, hcb, hct, hcn, hcf, hcr, hctl]
                    rw [List.map_cons, List.flatten_cons, hesc]
                    simp only [List.cons_append, List.nil_append, List.append_assoc]
                    rw [show ∀ (g : Nat) (e1 e2 : Char) (T : List Char),
                        parseStringBody (g + 1) ('\\' :: 'u' :: '0' :: '0' :: e1 :: e2 :: T) =
                        (match hexDigitVal '0', hexDigitVal '0', hexDigitVal e1, hexDigitVal e2 with
                         | some d1, some d2, some d3, some d4 =>
                           (parseStringBody g T).map
                             (fun sr => (Char.ofNat (((d1 * 16 + d2) * 16 + d3) * 16 + d4) :: sr.1, sr.2))
                         | _, _, _, _ => none) from fun g e1 e2 T => rfl]
                    rw [hexDigitVal_digitChar (c.toNat / 16) (by omega),
                        hexDigitVal_digitChar (c.toNat % 16) (by omega)]
                    show (parseStringBody f1 ((x'.map escChar).flatten ++ '"' :: rest)).map
                        (fun sr =>
                          (Char.ofNat (((0 * 16 + 0) * 16 + c.toNat / 16) * 16 + c.toNat % 16)
                            :: sr.1, sr.2))
                      = some (c :: x', rest)
                    rw [ih]
                    have hx : ((0 * 16 + 0) * 16 + c.toNat / 16) * 16 + c.toNat % 16 = c.toNat := by
                      omega
                    rw [hx, Char.ofNat_toNat]
                    rfl
                  · -- ordinary character, kept verbatim
                    have hesc : escChar c = [c] := by
                      simp [escChar, h1, h2, hcb, hct, hcn, hcf, hcr, hctl]
                    rw [List.map_cons, List.flatten_cons, hesc]
                    simp only [List.cons_append, List.nil_append]
                    rw [parseStringBody.eq_def]
                    simp only []
                    rw [if_neg h1, if_neg h2, if_neg hctl]
                    rw [ih]
                    rfl

theorem serializeElems_len : ∀ xs : List (List Char),
    3 * xs.length ≤ (serializeElems xs).length + 1
  | [] => by simp
  | [x] => by
    simp only [serializeElems, quoteStr, List.length_cons, List.length_append]
    simp
  | x :: y :: tl => by
    have ih := serializeElems_len (y :: tl)
    simp only [serializeElems, quoteStr, List.length_cons, List.length_append] at ih ⊢
    omega

theorem parseElems_ser : ∀ (xs : List (List Char)) (f : Nat) (rest : List Char),
    xs ≠ [] → 2 * xs.length ≤ f →
    parseElems f (serializeElems xs ++ ']' :: rest) = some (xs.map Json.str, rest)
  | [], _, _, hne, _ => absurd rfl hne
  | [x], f, rest, _, hf => by
    obtain ⟨f1, rfl⟩ : ∃ f1, f = f1 + 1 := ⟨f - 1, by simp at hf; omega⟩
    obtain ⟨f2, rfl⟩ : ∃ f2, f1 = f2 + 1 := ⟨f1 - 1, by simp at hf; omega⟩
    show parseElems (f2 + 1 + 1) (quoteStr x ++ ']' :: rest) = some ([Json.str x], rest)
    rw [show quoteStr x ++ ']' :: rest =
      '"' :: ((x.map escChar).flatten ++ '"' :: (']' :: rest)) by
        simp [quoteStr]]
    rw [show ∀ (g : Nat) (cs : List Char), parseElems (g + 1) cs =
      (match parseVal g cs with
       | none => none
       | some (v, r) =>
         match r with
         | ',' :: r1 =>
           (match parseElems g r1 with
            | some (vs, r2) => some (v :: vs, r2)
            | none => none)
         | ']' :: r1 => some ([v], r1)
         | _ => none) from fun g cs => rfl]
    rw [show ∀ (g : Nat) (T : List Char), parseVal (g + 1) ('"' :: T) =
      (match parseStringBody T.length T with
       | some (s, r) => some (Json.str s, r)
       | none => none) from fun g T => rfl]
    rw [parseStringBody_escape x ((x.map escChar).flatten ++ '"' :: (']' :: rest)).length
      (']' :: rest) (by
        have := escChar_flatten_len x
        simp only [List.length_append, List.length_cons]
        omega)]
    rfl
  | x :: y :: tl, f, rest, _, hf => by
    obtain ⟨f1, rfl⟩ : ∃ f1, f = f1 + 1 := ⟨f - 1, by simp at hf; omega⟩
    obtain ⟨f2, rfl⟩ : ∃ f2, f1 = f2 + 1 := ⟨f1 - 1, by simp at hf; omega⟩
    have ih := parseElems_ser (y :: tl) (f2 + 1) rest (by simp)
      (by simp only [List.length_cons] at hf ⊢; omega)
    show parseElems (f2 + 1 + 1) ((quoteStr x ++ ',' :: serializeElems (y :: tl)) ++ ']' :: rest)
      = some (Json.str x :: (y :: tl).map Json.str, rest)
    rw [show (quoteStr x ++ ',' :: serializeElems (y :: tl)) ++ ']' :: rest =
      '"' :: ((x.map escChar).flatten ++ '"' :: (',' :: (serializeElems (y :: tl) ++ ']' :: rest))) by
        simp [quoteStr]]
    rw [show ∀ (g : Nat) (cs : List Char), parseElems (g + 1) cs =
      (match parseVal g cs with
       | none => none
       | some (v, r) =>
         match r with
         | ',' :: r1 =>
           (match parseElems g r1 with
            | some (vs, r2) => some (v :: vs, r2)
            | none => none)
         | ']' :: r1 => some ([v], r1)
         | _ => none) from fun g cs => rfl]
    rw [show ∀ (g : Nat) (T : List Char), parseVal (g + 1) ('"' :: T) =
      (match parseStringBody T.length T with
       | some (s, r) => some (Json.str s, r)
       | none => none) from fun g T => rfl]
    rw [parseStringBody_escape x
      ((x.map escChar).flatten ++ '"' :: (',' :: (serializeElems (y :: tl) ++ ']' :: rest))).length
      (',' :: (serializeElems (y :: tl) ++ ']' :: rest)) (by
        have := escChar_flatten_len x
        simp only [List.length_append, List.length_cons]
        omega)]
    show (match parseElems (f2 + 1) (serializeElems (y :: tl) ++ ']' :: rest) with
      | some (vs, r2) => some (Json.str x :: vs, r2)
      | none => none) = some (Json.str x :: (y :: tl).map Json.str, rest)
    rw [ih]

theorem parseVal_ser (x : List Char) (tl : List (List Char)) (f : Nat)
    (hf : 2 * (x :: tl : List (List Char)).length + 1 ≤ f) :
    parseVal f ('[' :: (serializeElems (x :: tl) ++ [']'])) =
      some (Json.arr ((x :: tl).map Json.str), []) := by
  obtain ⟨f1, rfl⟩ : ∃ f1, f = f1 + 1 := ⟨f - 1, by omega⟩
  obtain ⟨sr, hsr⟩ : ∃ sr, serializeElems (x :: tl) = '"' :: sr := by
    cases tl with
    | nil => exact ⟨(x.map escChar).flatten ++ ['"'], rfl⟩
    | cons y tl' =>
      exact ⟨((x.map escChar).flatten ++ ['"']) ++ ',' :: serializeElems (y :: tl'), by
        simp [serializeElems, quoteStr]⟩
  rw [show '[' :: (serializeElems (x :: tl) ++ [']']) = '[' :: '"' :: (sr ++ [']']) by
    rw [hsr]; simp]
  rw [show ∀ (g : Nat) (s0 : List Char), parseVal (g + 1) ('[' :: '"' :: s0) =
    (match parseElems g ('"' :: s0) with
     | some (vs, r) => some (Json.arr vs, r)
     | none => none) from fun g s0 => rfl]
  rw [show ('"' :: (sr ++ [']']) : List Char) = serializeElems (x :: tl) ++ ']' :: [] by
    rw [hsr]; simp]
  rw [parseElems_ser (x :: tl) f1 [] (by simp)
    (by simp only [List.length_cons] at hf ⊢; omega)]

theorem deserializeTags_cons (c : Char) (rest : List Char) :
    deserializeTags (some (c :: rest)) =
      (match parseVal (c :: rest).length (c :: rest) with
       | some (.arr ys, []) => if ys.isEmpty then none else some ys
       | _ => none) := rfl

theorem deserializeTags_serializeTags (xs : List (List Char)) (hne : xs ≠ []) :
    deserializeTags (serializeTags (some xs)) = some (xs.map Json.str) := by
  obtain ⟨x, tl, rfl⟩ : ∃ x tl, xs = x :: tl := by
    cases xs with
    | nil => exact absurd rfl hne
    | cons x tl => exact ⟨x, tl, rfl⟩
  have hser : serializeTags (some (x :: tl)) =
      some ('[' :: (serializeElems (x :: tl) ++ [']'])) := rfl
  rw [hser, deserializeTags_cons]
  rw [parseVal_ser x tl _ (by
    have := serializeElems_len (x :: tl)
    simp only [List.length_cons, List.length_append] at this ⊢
    omega)]
  rfl

/-- C5: deserializing the serialized form of a non-empty tag array
returns the array itself; empty and undefined arrays serialize to the
absent marker (null), whose deserialization is absent (undefined); the
empty transport string deserializes to absent; and deserialization
never raises, returning absent or a non-empty array on every input. -/
theorem c5_tags_roundtrip :
    (∀ xs : List (List Char), xs ≠ [] →
      deserializeTags (serializeTags (some xs)) = some (xs.map Json.str)) ∧
    serializeTags none = none ∧
    serializeTags (some []) = none ∧
    deserializeTags none = none ∧
    deserializeTags (some []) = none ∧
    (∀ cs : List Char, deserializeTags (some cs) = none ∨
      ∃ js, js ≠ [] ∧ deserializeTags (some cs) = some js) := by
  refine ⟨deserializeTags_serializeTags, rfl, rfl, rfl, rfl, ?_⟩
  intro cs
  cases cs with
  | nil => exact Or.inl rfl
  | cons c rest =>
    rw [deserializeTags_cons]
    cases hpv : parseVal (c :: rest).length (c :: rest) with
    | none => exact Or.inl rfl
    | some vr =>
      obtain ⟨v, r⟩ := vr
      cases v with
      | str s => cases r <;> exact Or.inl rfl
      | bool b => cases r <;> exact Or.inl rfl
      | null => cases r <;> exact Or.inl rfl
      | num l => cases r <;> exact Or.inl rfl
      | arr ys =>
        cases r with
        | cons r0 r' => exact Or.inl rfl
        | nil =>
          cases ys with
          | nil => exact Or.inl rfl
          | cons y ys' => exact Or.inr ⟨y :: ys', by simp, rfl⟩

/-- Witness for C5: the round trip evaluated at a concrete two-tag
array. -/
theorem c5_witness :
    deserializeTags (serializeTags (some [jstr ("web"), jstr ("production")])) =
      some [Json.str (jstr ("web")), Json.str (jstr ("production"))] :=
  c5_tags_roundtrip.1 [jstr ("web"), jstr ("production")] (by simp)

/-- Witness for C8: the last-segment characterization applied at a
concrete double-extension filename. -/
theorem c8_witness :
    isBlockedExtension (jstr ("image.jpg") ++ '.' :: jstr ("EXE")) =
      blockedExtensions.contains ((jstr ("EXE")).map Char.toLower) :=
  c8_isBlockedExtension_lastSegment.2.2.2.2.2.2.2 (jstr ("image.jpg")) (jstr ("EXE")) (by decide)
